import Mathlib

/-!
# daemond: a shallow embedding of `daemond.c`

The program is a single C file.  Its functions are embedded as total Lean
functions over an explicit process state.  Every call by which the program acts
on the world outside it is appended to a trace of events, and every answer the
operating system gives
(the result of `kill`, `fork`, `open`, ...) is taken from an environment
`World`, so that a statement quantified over all worlds covers every behaviour
of the operating system.

C strings are lists of `Char`, each element standing for one `char` of the C
string.  C `int` and `pid_t` values are `Int`.
-/

namespace Daemond

/-- A C string: the sequence of its `char`s, without the terminating NUL. -/
abbrev CStr := List Char

/-! ## libc text conversions -/

/-- The C-locale `isspace`: space, `\t`, `\n`, `\v`, `\f`, `\r`. -/
def isspace (c : Char) : Bool :=
  c.toNat = 32 || (9 ≤ c.toNat && c.toNat ≤ 13)

/-- The C `isdigit`: `'0'` to `'9'`. -/
def isdigit (c : Char) : Bool :=
  48 ≤ c.toNat && c.toNat ≤ 57

/-- The character of a decimal digit. -/
def digit_char (d : Nat) : Char := Char.ofNat (48 + d)

/-- The value of a decimal digit character. -/
def digit_val (c : Char) : Nat := c.toNat - 48

/-- The digits of `n`, most significant first, pushed in front of `acc`;
the first argument bounds the number of digits produced. -/
def utoa_aux : Nat → Nat → CStr → CStr
  | 0, _, acc => acc
  | fuel + 1, n, acc =>
    if n / 10 = 0 then digit_char (n % 10) :: acc
    else utoa_aux fuel (n / 10) (digit_char (n % 10) :: acc)

/-- The text of `%u` applied to `n`. -/
def fmt_u (n : Nat) : CStr := utoa_aux (n + 1) n []

/-- The text of `%d` applied to `i`. -/
def fmt_d (i : Int) : CStr :=
  if i < 0 then '-' :: fmt_u i.natAbs else fmt_u i.toNat

/-- The number a run of decimal digits denotes. -/
def decimal_value (ds : CStr) : Nat :=
  ds.foldl (fun a c => 10 * a + digit_val c) 0

/-- The result of `strtoimax`: the value, saturated to the range of `intmax_t`. -/
def strtoimax_sat (v : Int) : Int :=
  max (-(2 ^ 63)) (min v (2 ^ 63 - 1))

/-- The conversion of an `intmax_t` to a 32-bit `int` (two's complement, low 32 bits). -/
def to_int32 (v : Int) : Int :=
  (v + 2 ^ 31) % 2 ^ 32 - 2 ^ 31

/-- The conversion `fscanf(f, "%d", &pid)` on a stream holding `input`:
leading white space is skipped, an optional sign is taken, then the longest run
of decimal digits.  `none` is a return value other than 1 (no digit found, or
end of file); `some v` is return value 1 with `v` stored.  A value in the range
of `int` is stored as it is; outside that range ISO C leaves the conversion
undefined and the FreeBSD libc stores the low 32 bits of the `strtoimax`
result, which is what is modelled. -/
def scanf_d (input : CStr) : Option Int :=
  let rest := input.dropWhile isspace
  let signed : Bool × CStr :=
    match rest with
    | '-' :: r => (true, r)
    | '+' :: r => (false, r)
    | r => (false, r)
  let ds := signed.2.takeWhile isdigit
  if ds = [] then none
  else
    let v : Int := decimal_value ds
    some (to_int32 (strtoimax_sat (if signed.1 then -v else v)))

/-! ## The registry path -/

/-- The macro `PID_DIR`. -/
def PID_DIR : CStr := "/var/run".toList

/-- The macro `MAX_PID_FILE_LENGTH`. -/
def MAX_PID_FILE_LENGTH : Nat := 256

/-- The text `snprintf(buf, size, ...)` leaves in `buf` when the formatted text
is `text`: at most `size - 1` characters of it. -/
def snprintf (size : Nat) (text : CStr) : CStr := text.take (size - 1)

/-- `get_pid_file`: `snprintf(pid_file, MAX_PID_FILE_LENGTH, "%s/%s.pid", PID_DIR, daemon_name)`. -/
def get_pid_file (daemon_name : CStr) : CStr :=
  snprintf MAX_PID_FILE_LENGTH (PID_DIR ++ "/".toList ++ daemon_name ++ ".pid".toList)

/-! ## The process and its environment -/

/-- The signal number of `SIGTERM`. -/
def SIGTERM : Int := 15

/-- The signal number of `SIGKILL`. -/
def SIGKILL : Int := 9

/-- A call by which the process acts on the world outside it. -/
inductive Event where
  | stderr (text : CStr)
  | syslog (text : CStr)
  | kill (pid : Int) (sig : Int)
  | sleep (seconds : Nat)
  | unlink (path : CStr)
  | fork
  | setsid
  | chdir (path : CStr)
  | umask (mask : Nat)
  | close (fd : Int)
  | freopen (path : CStr) (mode : CStr) (stream : Nat)
  | open_rdwr_creat (path : CStr) (mode : Nat)
  | flock_ex_nb (fd : Int)
  | ftruncate (fd : Int) (length : Nat)
  | write (fd : Int) (text : CStr)
  | execvp (file : CStr) (argv : List CStr)
  deriving DecidableEq

/-- The answers of the operating system.  `kill_ok n pid sig` tells whether the
`n`-th call of `kill` made by the process, `kill(pid, sig)`, returns 0;
`fork_ret n` is what the `n`-th `fork` returns in the process that is followed. -/
structure World where
  kill_ok : Nat → Int → Int → Bool
  fork_ret : Nat → Int
  setsid_ret : Int
  open_max : Int
  open_ret : Int
  flock_ret : Int
  ftruncate_ret : Int
  write_count : Nat
  unlink_ok : CStr → Bool
  getpid : Int
  execvp_ok : Bool
  strerror_errno : CStr

/-- The state of the process and of the file system it sees.  `files path` is
the content `fopen(path, "r")` would read, `none` when the file cannot be
opened; `nkill` and `nfork` count the calls of `kill` and `fork` made so far;
`trace` lists the events so far, oldest first. -/
structure State where
  files : CStr → Option CStr
  nkill : Nat
  nfork : Nat
  trace : List Event

/-- How the execution of a function ends: it returns `code`, the process
exits with `code`, or the process image is replaced by `execvp`. -/
inductive Outcome where
  | ret (code : Int)
  | exit (code : Int)
  | exec (file : CStr) (argv : List CStr)
  deriving DecidableEq

/-- Record an event. -/
def emit (s : State) (e : Event) : State :=
  { s with trace := s.trace ++ [e] }

/-- The call `kill(pid, sig)`: 0 on success, -1 on failure. -/
def kill (w : World) (s : State) (pid sig : Int) : Int × State :=
  (if w.kill_ok s.nkill pid sig then 0 else -1,
   { s with nkill := s.nkill + 1, trace := s.trace ++ [Event.kill pid sig] })

/-- The call `fork()`. -/
def fork (w : World) (s : State) : Int × State :=
  (w.fork_ret s.nfork, { s with nfork := s.nfork + 1, trace := s.trace ++ [Event.fork] })

/-- The call `sleep(seconds)`. -/
def sleep (s : State) (seconds : Nat) : State :=
  emit s (Event.sleep seconds)

/-- The call `unlink(path)`; the file is gone when the call succeeds. -/
def unlink (w : World) (s : State) (path : CStr) : State :=
  { s with
    files := fun p => if p = path ∧ w.unlink_ok path = true then none else s.files p
    trace := s.trace ++ [Event.unlink path] }

/-- Replace the content of one file. -/
def set_file (s : State) (path : CStr) (content : CStr) : State :=
  { s with files := fun p => if p = path then some content else s.files p }

/-! ## The functions of `daemond.c` -/

/-- `write_pid_file`: open (creating) the file, lock it, truncate it and write
`"%d\n"` of `getpid()`; 1 when `open`, `flock` or `ftruncate` fails, else 0. -/
def write_pid_file (w : World) (s : State) (pid_file : CStr) : Int × State :=
  let s1 := emit s (Event.open_rdwr_creat pid_file 0o640)
  let fd := w.open_ret
  if fd < 0 then (1, s1)
  else
    let s2 := set_file s1 pid_file ((s1.files pid_file).getD [])
    let s3 := emit s2 (Event.flock_ex_nb fd)
    if w.flock_ret < 0 then (1, emit s3 (Event.close fd))
    else
      let s4 := emit s3 (Event.ftruncate fd 0)
      if w.ftruncate_ret < 0 then (1, emit s4 (Event.close fd))
      else
        let s5 := set_file s4 pid_file []
        let str := fmt_d w.getpid ++ "\n".toList
        let written := str.take w.write_count
        let old := (s5.files pid_file).getD []
        (0, emit (set_file s5 pid_file (written ++ old.drop written.length))
              (Event.write fd str))

/-- `read_pid_file`: -1 when the file cannot be opened or `fscanf` does not
return 1, else the value `fscanf` stored. -/
def read_pid_file (s : State) (pid_file : CStr) : Int :=
  match s.files pid_file with
  | none => -1
  | some content =>
    match scanf_d content with
    | none => -1
    | some pid => pid

/-- `is_process_running`: `kill(pid, 0) == 0`. -/
def is_process_running (w : World) (s : State) (pid : Int) : Bool × State :=
  let r := kill w s pid 0
  (r.1 == 0, r.2)

/-- The loop `for (int x = sysconf(_SC_OPEN_MAX); x >= 0; x--) close(x);`
from `x` downwards. -/
def close_from : Nat → State → State
  | 0, s => emit s (Event.close 0)
  | x + 1, s => close_from x (emit s (Event.close (Int.ofNat (x + 1))))

/-- `start_daemon`. -/
def start_daemon (w : World) (s : State) (daemon_name : CStr) (argv : List CStr) :
    Outcome × State :=
  let pid_file := get_pid_file daemon_name
  let existing_pid := read_pid_file s pid_file
  let running : Bool × State :=
    if existing_pid > 0 then is_process_running w s existing_pid else (false, s)
  if running.1 then
    (Outcome.ret 1, emit running.2 (Event.stderr
      ("Daemon already running with PID ".toList ++ fmt_d existing_pid ++ "\n".toList)))
  else
    let f1 := fork w running.2
    if f1.1 < 0 then (Outcome.ret 1, f1.2)
    else if f1.1 > 0 then (Outcome.exit 0, f1.2)
    else
      let s1 := emit f1.2 Event.setsid
      if w.setsid_ret < 0 then (Outcome.exit 1, s1)
      else
        let f2 := fork w s1
        if f2.1 < 0 then (Outcome.exit 1, f2.2)
        else if f2.1 > 0 then (Outcome.exit 0, f2.2)
        else
          let s2 := emit (emit f2.2 (Event.chdir "/".toList)) (Event.umask 0)
          let s3 := if w.open_max < 0 then s2 else close_from w.open_max.toNat s2
          let s4 := emit s3 (Event.freopen "/dev/null".toList "r".toList 0)
          let s5 := emit s4 (Event.freopen "/dev/null".toList "w".toList 1)
          let s6 := emit s5 (Event.freopen "/dev/null".toList "w".toList 2)
          let r := write_pid_file w s6 pid_file
          if r.1 ≠ 0 then
            (Outcome.exit 1, emit r.2 (Event.syslog "Could not create PID file".toList))
          else
            let file := argv.headD []
            let s7 := emit r.2 (Event.execvp file argv)
            if w.execvp_ok then (Outcome.exec file argv, s7)
            else
              (Outcome.exit 1, emit s7 (Event.syslog
                ("Failed to execute ".toList ++ file ++ ": ".toList ++ w.strerror_errno)))

/-- The loop `while (max_wait-- > 0 && is_process_running(pid)) sleep(1);`
entered with the given value of `max_wait`. -/
def wait_loop (w : World) (pid : Int) : Nat → State → State
  | 0, s => s
  | max_wait + 1, s =>
    let r := is_process_running w s pid
    if r.1 then wait_loop w pid max_wait (sleep r.2 1) else r.2

/-- `stop_daemon`. -/
def stop_daemon (w : World) (s : State) (daemon_name : CStr) : Int × State :=
  let pid_file := get_pid_file daemon_name
  let pid := read_pid_file s pid_file
  if pid < 0 then
    (1, emit s (Event.stderr "PID file not found or invalid\n".toList))
  else
    let r := is_process_running w s pid
    if !r.1 then
      (1, unlink w (emit r.2 (Event.stderr "Process not running\n".toList)) pid_file)
    else
      let k := kill w r.2 pid SIGTERM
      if k.1 < 0 then
        (1, emit k.2 (Event.stderr
          ("Failed to stop process: ".toList ++ w.strerror_errno ++ "\n".toList)))
      else
        let s1 := wait_loop w pid 10 k.2
        let r2 := is_process_running w s1 pid
        let s2 := if r2.1 then (kill w r2.2 pid SIGKILL).2 else r2.2
        (0, unlink w s2 pid_file)

/-- `restart_daemon`. -/
def restart_daemon (w : World) (s : State) (daemon_name : CStr) (argv : List CStr) :
    Outcome × State :=
  let r := stop_daemon w s daemon_name
  start_daemon w (sleep r.2 1) daemon_name argv

/-- `usage`: two lines on standard error, then `exit(1)`. -/
def usage (s : State) (program_name : CStr) : Outcome × State :=
  let s1 := emit s (Event.stderr
    ("Usage: ".toList ++ program_name ++
      " <name> start|stop|restart -- command [args...]\n".toList))
  let s2 := emit s1 (Event.stderr
    ("Example: ".toList ++ program_name ++
      " myapp start -- /usr/local/bin/myapp -c config.conf\n".toList))
  (Outcome.exit 1, s2)

/-- The loop of `main` that looks for `"--"`: over the arguments from index `i`
on, the value `cmd_start` has when the loop ends. -/
def find_cmd_start : List CStr → Nat → Int
  | [], _ => -1
  | a :: rest, i => if a = "--".toList then (Int.ofNat i) + 1 else find_cmd_start rest (i + 1)

/-- `main`, on the argument vector `argv` (`argc` is its length).  A missing
`argv[0]` is printed as `(null)`. -/
def main (w : World) (s : State) (argv : List CStr) : Outcome × State :=
  let argc : Int := Int.ofNat argv.length
  let program_name := argv.headD "(null)".toList
  if argc < 3 then usage s program_name
  else
    let daemon_name := argv.getD 1 []
    let action := argv.getD 2 []
    let cmd_start := find_cmd_start (argv.drop 3) 3
    if action = "start".toList then
      if cmd_start = -1 ∨ cmd_start ≥ argc then usage s program_name
      else start_daemon w s daemon_name (argv.drop cmd_start.toNat)
    else if action = "stop".toList then
      let r := stop_daemon w s daemon_name
      (Outcome.ret r.1, r.2)
    else if action = "restart".toList then
      if cmd_start = -1 ∨ cmd_start ≥ argc then usage s program_name
      else restart_daemon w s daemon_name (argv.drop cmd_start.toNat)
    else usage s program_name

/-! ## Specification-side notions

These follow the words of the specification, not the code. -/

/-- The content begins with a parsable integer: after leading white space
comes a decimal digit, or a sign followed by a decimal digit. -/
def begins_with_integer (content : CStr) : Bool :=
  match content.dropWhile isspace with
  | [] => false
  | c :: rest =>
    isdigit c || ((c == '+' || c == '-') && (match rest with
      | [] => false
      | d :: _ => isdigit d))

/-- The first white-space-delimited token of the content. -/
def first_token (content : CStr) : CStr :=
  (content.dropWhile isspace).takeWhile (fun c => !isspace c)

/-- A token is a valid decimal integer: an optional sign, then one or more
decimal digits and nothing else. -/
def is_decimal_integer (token : CStr) : Bool :=
  match token with
  | [] => false
  | c :: rest =>
    if c = '+' ∨ c = '-' then !rest.isEmpty && rest.all isdigit
    else (c :: rest).all isdigit

/-- The invocation has one of the three forms of the command line:
`<name> stop`, `<name> start -- <command> [args...]`,
`<name> restart -- <command> [args...]`, after the program name. -/
def well_formed_cli (argv : List CStr) : Bool :=
  match argv with
  | [_, _, action] => action == "stop".toList
  | _ :: _ :: action :: dashes :: _ :: _ =>
    (action == "start".toList || action == "restart".toList) && dashes == "--".toList
  | _ => false

/-- The invocation is one `main` acts on: at least two arguments after the
program name, and the action is `stop`, or it is `start` or `restart` and some
argument from index 3 on is `--` and is not the last one. -/
def cli_accepted (argv : List CStr) : Prop :=
  3 ≤ argv.length ∧
  (argv.getD 2 [] = "stop".toList ∨
    ((argv.getD 2 [] = "start".toList ∨ argv.getD 2 [] = "restart".toList) ∧
      ∃ i, 3 ≤ i ∧ i + 1 < argv.length ∧ argv.getD i [] = "--".toList))

/-! ## Auxiliary definitions for the statements -/

/-- A world in which the first `n` calls of `kill` succeed and the later ones
fail; every other call succeeds and the process id is 4242. -/
def world_alive_for (n : Nat) : World :=
  { kill_ok := fun i _ _ => decide (i < n)
    fork_ret := fun _ => 0
    setsid_ret := 0
    open_max := 3
    open_ret := 3
    flock_ret := 0
    ftruncate_ret := 0
    write_count := 32
    unlink_ok := fun _ => true
    getpid := 4242
    execvp_ok := true
    strerror_errno := "No such process".toList }

/-- A fresh process that sees one registry file at most, `/var/run/web.pid`,
with the given content (`none`: the file cannot be opened). -/
def state_with_entry (content : Option CStr) : State :=
  { files := fun p => if p = "/var/run/web.pid".toList then content else none
    nkill := 0
    nfork := 0
    trace := [] }

/-! ## Lemmas on the text conversions -/

theorem digit_char_spec :
    ∀ d, d < 10 → isdigit (digit_char d) = true ∧ digit_val (digit_char d) = d := by
  decide

theorem isdigit_not_isspace (c : Char) (h : isdigit c = true) : isspace c = false := by
  simp only [isdigit, isspace, Bool.and_eq_true, decide_eq_true_eq, Bool.or_eq_false_iff,
    decide_eq_false_iff_not, Bool.and_eq_false_iff] at *
  omega

theorem utoa_aux_isdigit (fuel n : Nat) (acc : CStr) (h : ∀ c ∈ acc, isdigit c = true) :
    ∀ c ∈ utoa_aux fuel n acc, isdigit c = true := by
  induction fuel generalizing n acc with
  | zero => simpa [utoa_aux] using h
  | succ fuel ih =>
    have hd : isdigit (digit_char (n % 10)) = true :=
      (digit_char_spec (n % 10) (Nat.mod_lt _ (by decide))).1
    have hacc : ∀ c ∈ digit_char (n % 10) :: acc, isdigit c = true := by
      intro c hc
      rcases List.mem_cons.mp hc with rfl | hc
      · exact hd
      · exact h c hc
    unfold utoa_aux
    split
    · exact hacc
    · exact ih _ _ hacc

theorem utoa_aux_ne_nil (fuel n : Nat) (acc : CStr) (h : acc ≠ []) :
    utoa_aux fuel n acc ≠ [] := by
  induction fuel generalizing n acc with
  | zero => simpa [utoa_aux] using h
  | succ fuel ih =>
    unfold utoa_aux
    split
    · simp
    · exact ih _ _ (by simp)

theorem utoa_aux_value (fuel n : Nat) (acc : CStr) (h : n < fuel) :
    (utoa_aux fuel n acc).foldl (fun a c => 10 * a + digit_val c) 0
      = acc.foldl (fun a c => 10 * a + digit_val c) n := by
  induction fuel generalizing n acc with
  | zero => omega
  | succ fuel ih =>
    have hv : digit_val (digit_char (n % 10)) = n % 10 :=
      (digit_char_spec (n % 10) (Nat.mod_lt _ (by decide))).2
    unfold utoa_aux
    split
    · rename_i h0
      have : n % 10 = n := by omega
      rw [List.foldl_cons, hv, this]
      simp
    · rename_i h0
      rw [ih (n / 10) _ (by omega)]
      have : 10 * (n / 10) + n % 10 = n := by omega
      rw [List.foldl_cons, hv, this]

theorem fmt_u_isdigit (n : Nat) : ∀ c ∈ fmt_u n, isdigit c = true :=
  utoa_aux_isdigit _ _ _ (by simp)

theorem fmt_u_ne_nil (n : Nat) : fmt_u n ≠ [] := by
  unfold fmt_u utoa_aux
  split
  · simp
  · exact utoa_aux_ne_nil _ _ _ (by simp)

theorem fmt_u_value (n : Nat) : decimal_value (fmt_u n) = n := by
  unfold decimal_value fmt_u
  rw [utoa_aux_value _ _ _ (Nat.lt_succ_self n)]
  rfl

theorem to_int32_of_int_range (v : Int) (hlo : -(2 ^ 31) ≤ v) (hhi : v < 2 ^ 31) :
    to_int32 (strtoimax_sat v) = v := by
  have h1 : strtoimax_sat v = v := by
    unfold strtoimax_sat
    norm_num at hlo hhi ⊢
    omega
  rw [h1]
  unfold to_int32
  norm_num at hlo hhi ⊢
  omega

theorem dropWhile_isspace_append (ws tail : CStr) (hws : ∀ c ∈ ws, isspace c = true)
    (htail : ∀ c, tail.head? = some c → isspace c = false) :
    (ws ++ tail).dropWhile isspace = tail := by
  induction ws with
  | nil =>
    cases tail with
    | nil => rfl
    | cons c r => simp [List.dropWhile, htail c rfl]
  | cons a ws ih =>
    have ha : isspace a = true := hws a (by simp)
    rw [List.cons_append, List.dropWhile_cons, ha]
    simpa using ih (fun c hc => hws c (by simp [hc]))

theorem takeWhile_isdigit_append (ds rest : CStr) (hds : ∀ c ∈ ds, isdigit c = true)
    (hrest : ∀ c, rest.head? = some c → isdigit c = false) :
    (ds ++ rest).takeWhile isdigit = ds := by
  induction ds with
  | nil =>
    cases rest with
    | nil => rfl
    | cons c r => simp [List.takeWhile, hrest c rfl]
  | cons a ds ih =>
    have ha : isdigit a = true := hds a (by simp)
    have hrec := ih (fun c hc => hds c (by simp [hc]))
    rw [List.cons_append, List.takeWhile_cons, ha]
    simp only [if_true, hrec]

theorem scanf_d_eq_none_iff (content : CStr) :
    scanf_d content = none ↔ begins_with_integer content = false := by
  unfold scanf_d begins_with_integer
  generalize content.dropWhile isspace = rest
  cases rest with
  | nil => simp
  | cons c r =>
    by_cases hm : c = '-'
    · subst hm
      have h1 : isdigit '-' = false := by decide
      cases r with
      | nil => simp [h1]
      | cons d r => by_cases hd : isdigit d = true <;> simp [h1, hd, List.takeWhile_cons]
    · by_cases hp : c = '+'
      · subst hp
        have h1 : isdigit '+' = false := by decide
        cases r with
        | nil => simp [h1]
        | cons d r => by_cases hd : isdigit d = true <;> simp [h1, hd, List.takeWhile_cons]
      · have hsplit : (match c :: r with
            | '-' :: r => (true, r)
            | '+' :: r => (false, r)
            | r => (false, r)) = (false, c :: r) := by
          split
          · rename_i heq
            simp at heq
            exact absurd heq.1 hm
          · rename_i heq
            simp at heq
            exact absurd heq.1 hp
          · rfl
        simp only [hsplit]
        by_cases hd : isdigit c = true
        · simp [List.takeWhile_cons, hd]
        · simp [List.takeWhile_cons, hd, hm, hp]

theorem scanf_d_parts (ws sgn ds rest : CStr)
    (hws : ∀ c ∈ ws, isspace c = true)
    (hsgn : sgn = [] ∨ sgn = ['+'] ∨ sgn = ['-'])
    (hne : ds ≠ [])
    (hds : ∀ c ∈ ds, isdigit c = true)
    (hrest : ∀ c, rest.head? = some c → isdigit c = false) :
    scanf_d (ws ++ sgn ++ ds ++ rest) =
      some (to_int32 (strtoimax_sat
        (if sgn = ['-'] then -(decimal_value ds : Int) else (decimal_value ds : Int)))) := by
  have htake := takeWhile_isdigit_append ds rest hds hrest
  cases ds with
  | nil => exact absurd rfl hne
  | cons d ds =>
    have hd : isdigit d = true := hds d (by simp)
    have hdm : d ≠ '-' := by
      rintro rfl
      exact absurd hd (by decide)
    have hdp : d ≠ '+' := by
      rintro rfl
      exact absurd hd (by decide)
    unfold scanf_d
    rcases hsgn with rfl | rfl | rfl
    · have hdrop : (ws ++ [] ++ d :: ds ++ rest).dropWhile isspace = d :: ds ++ rest := by
        have := dropWhile_isspace_append ws (d :: ds ++ rest) hws
          (by
            intro c hc
            simp at hc
            subst hc
            exact isdigit_not_isspace _ hd)
        simpa using this
      have hsplit : (match d :: ds ++ rest with
          | '-' :: r => (true, r)
          | '+' :: r => (false, r)
          | r => (false, r)) = (false, d :: ds ++ rest) := by
        split
        · rename_i heq
          simp at heq
          exact absurd heq.1 hdm
        · rename_i heq
          simp at heq
          exact absurd heq.1 hdp
        · rfl
      simp only [hdrop, hsplit, htake]
      simp
    · have hdrop : (ws ++ ['+'] ++ d :: ds ++ rest).dropWhile isspace
          = '+' :: (d :: ds ++ rest) := by
        have := dropWhile_isspace_append ws ('+' :: (d :: ds ++ rest)) hws
          (by
            intro c hc
            simp at hc
            subst hc
            decide)
        simpa using this
      simp only [hdrop, htake]
      simp
    · have hdrop : (ws ++ ['-'] ++ d :: ds ++ rest).dropWhile isspace
          = '-' :: (d :: ds ++ rest) := by
        have := dropWhile_isspace_append ws ('-' :: (d :: ds ++ rest)) hws
          (by
            intro c hc
            simp at hc
            subst hc
            decide)
        simpa using this
      simp only [hdrop, htake]
      simp

theorem scanf_d_fmt_d_newline (p : Int) (hpos : 0 < p) (hhi : p < 2 ^ 31) :
    scanf_d (fmt_d p ++ "\n".toList) = some p := by
  have hfmt : fmt_d p = fmt_u p.toNat := by
    unfold fmt_d
    rw [if_neg (by omega)]
  have h := scanf_d_parts [] [] (fmt_u p.toNat) "\n".toList (by simp) (Or.inl rfl)
    (fmt_u_ne_nil _) (fmt_u_isdigit _)
    (by
      intro c hc
      simp at hc
      subst hc
      decide)
  rw [hfmt]
  simp only [List.append_nil, List.nil_append] at h
  rw [h, fmt_u_value]
  have hcast : ((p.toNat : Nat) : Int) = p := Int.toNat_of_nonneg (by omega)
  simp only [List.nil_eq, reduceCtorEq, if_false, hcast]
  rw [to_int32_of_int_range p (by omega) hhi]

/-! ## Lemmas on the wait loop of `stop_daemon` -/

theorem read_pid_file_unparsable (s : State) (pid_file : CStr)
    (h : s.files pid_file = none ∨
      ∃ content, s.files pid_file = some content ∧ begins_with_integer content = false) :
    read_pid_file s pid_file = -1 := by
  unfold read_pid_file
  rcases h with h | ⟨content, h, hb⟩
  · rw [h]
  · rw [h]
    simp only [(scanf_d_eq_none_iff content).mpr hb]

/-- C1: when the registry file of the name cannot be opened, or does not begin
with a parsable integer, `stop_daemon` returns 1 and does nothing but print its
error message: it calls neither `kill` (no probe, no SIGTERM, no SIGKILL) nor
`unlink`, and the files are as they were. -/
theorem stop_daemon_no_entry (w : World) (s : State) (daemon_name : CStr)
    (h : s.files (get_pid_file daemon_name) = none ∨
      ∃ content, s.files (get_pid_file daemon_name) = some content ∧
        begins_with_integer content = false) :
    (stop_daemon w s daemon_name).1 = 1 ∧
    (stop_daemon w s daemon_name).2.trace
      = s.trace ++ [Event.stderr "PID file not found or invalid\n".toList] ∧
    (∀ e ∈ (stop_daemon w s daemon_name).2.trace.drop s.trace.length,
      (∀ pid sig, e ≠ Event.kill pid sig) ∧ (∀ path, e ≠ Event.unlink path)) ∧
    (stop_daemon w s daemon_name).2.nkill = s.nkill ∧
    (stop_daemon w s daemon_name).2.files = s.files := by
  have hread := read_pid_file_unparsable s _ h
  have hstop : stop_daemon w s daemon_name
      = (1, emit s (Event.stderr "PID file not found or invalid\n".toList)) := by
    unfold stop_daemon
    simp only [hread]
    rw [if_pos (by decide)]
  rw [hstop]
  refine ⟨rfl, rfl, ?_, rfl, rfl⟩
  intro e he
  simp only [emit, List.drop_left, List.mem_singleton] at he
  subst he
  exact ⟨fun _ _ => by simp, fun _ => by simp⟩

/-- C2: when the registry file of the name holds a process id (a value that
is not negative; every process id is positive) and the liveness probe reports
the process as not alive, `stop_daemon` returns 1, and what it does is exactly:
the probe, the message, and the `unlink` of the registry file; neither SIGTERM
nor SIGKILL is sent, and the file is gone when the `unlink` succeeds. -/
theorem stop_daemon_stale_entry (w : World) (s : State) (daemon_name : CStr) (p : Int)
    (hread : read_pid_file s (get_pid_file daemon_name) = p) (hp : 0 ≤ p)
    (hdead : w.kill_ok s.nkill p 0 = false) :
    (stop_daemon w s daemon_name).1 = 1 ∧
    (stop_daemon w s daemon_name).2.trace
      = s.trace ++ [Event.kill p 0, Event.stderr "Process not running\n".toList,
          Event.unlink (get_pid_file daemon_name)] ∧
    (∀ pid, Event.kill pid SIGTERM ∉ (stop_daemon w s daemon_name).2.trace.drop s.trace.length ∧
      Event.kill pid SIGKILL ∉ (stop_daemon w s daemon_name).2.trace.drop s.trace.length) ∧
    (w.unlink_ok (get_pid_file daemon_name) = true →
      (stop_daemon w s daemon_name).2.files (get_pid_file daemon_name) = none) := by
  have hstop : stop_daemon w s daemon_name
      = (1, unlink w (emit (kill w s p 0).2 (Event.stderr "Process not running\n".toList))
          (get_pid_file daemon_name)) := by
    unfold stop_daemon
    simp only [hread]
    rw [if_neg (by omega)]
    simp [is_process_running, kill, hdead]
  rw [hstop]
  refine ⟨rfl, by simp [unlink, emit, kill], ?_, ?_⟩
  · intro pid
    simp [unlink, emit, kill, SIGTERM, SIGKILL]
  · intro hu
    simp [unlink, hu]

/-- C4: when the registry file of the name holds the id of a live process (a
positive id the probe reports alive), `start_daemon` returns 1 after the probe
and its message alone: no `fork`, no `execvp`, no `open`, `ftruncate`, `write`
or `unlink`, and the files are as they were. -/
theorem start_daemon_already_running (w : World) (s : State) (daemon_name : CStr)
    (argv : List CStr) (p : Int)
    (hread : read_pid_file s (get_pid_file daemon_name) = p) (hp : 0 < p)
    (hlive : w.kill_ok s.nkill p 0 = true) :
    (start_daemon w s daemon_name argv).1 = Outcome.ret 1 ∧
    (start_daemon w s daemon_name argv).2.trace
      = s.trace ++ [Event.kill p 0, Event.stderr
          ("Daemon already running with PID ".toList ++ fmt_d p ++ "\n".toList)] ∧
    (start_daemon w s daemon_name argv).2.files = s.files ∧
    (start_daemon w s daemon_name argv).2.nfork = s.nfork := by
  have hstart : start_daemon w s daemon_name argv
      = (Outcome.ret 1, emit (kill w s p 0).2 (Event.stderr
          ("Daemon already running with PID ".toList ++ fmt_d p ++ "\n".toList))) := by
    unfold start_daemon
    simp only [hread]
    simp [is_process_running, kill, hlive, hp]
  rw [hstart]
  exact ⟨rfl, by simp [emit, kill], rfl, rfl⟩

/-! ## `read_pid_file` and `write_pid_file` -/

/-- C5, as amended: `read_pid_file` returns -1 when the file cannot be
opened, and when its content does not begin, after white space, with an
optionally signed run of decimal digits; and when the content is white space,
an optional sign, a longest run of one or more digits and then anything at all,
it returns the signed value of that run, provided the value is in the range of
a 32-bit `int`. -/
theorem read_pid_file_spec (s : State) (pid_file : CStr) :
    (s.files pid_file = none → read_pid_file s pid_file = -1) ∧
    (∀ content, s.files pid_file = some content → begins_with_integer content = false →
      read_pid_file s pid_file = -1) ∧
    (∀ ws sgn ds rest v, s.files pid_file = some (ws ++ sgn ++ ds ++ rest) →
      (∀ c ∈ ws, isspace c = true) →
      (sgn = [] ∨ sgn = ['+'] ∨ sgn = ['-']) →
      ds ≠ [] → (∀ c ∈ ds, isdigit c = true) →
      (∀ c, rest.head? = some c → isdigit c = false) →
      v = (if sgn = ['-'] then -(decimal_value ds : Int) else (decimal_value ds : Int)) →
      -(2 ^ 31) ≤ v → v < 2 ^ 31 →
      read_pid_file s pid_file = v) := by
  refine ⟨fun h => read_pid_file_unparsable s _ (Or.inl h),
    fun content h hb => read_pid_file_unparsable s _ (Or.inr ⟨content, h, hb⟩), ?_⟩
  intro ws sgn ds rest v hfile hws hsgn hne hds hrest hv hlo hhi
  unfold read_pid_file
  rw [hfile]
  simp only [scanf_d_parts ws sgn ds rest hws hsgn hne hds hrest, ← hv,
    to_int32_of_int_range v hlo hhi]

/-- C6: for every process id `p` that `getpid` can return (a positive 32-bit
`int`), the text `"%d\n"` makes of `p` is parsed by `"%d"` back to exactly `p`;
and when `open`, `flock` and `ftruncate` succeed and `write` transfers the
whole text, `write_pid_file` returns 0 and leaves exactly that text in the
registry file, from which `read_pid_file` returns `p`. -/
theorem write_read_round_trip (w : World) (s : State) (pid_file : CStr)
    (hpos : 0 < w.getpid) (hhi : w.getpid < 2 ^ 31) :
    scanf_d (fmt_d w.getpid ++ "\n".toList) = some w.getpid ∧
    (0 ≤ w.open_ret → 0 ≤ w.flock_ret → 0 ≤ w.ftruncate_ret →
      (fmt_d w.getpid ++ "\n".toList).length ≤ w.write_count →
      (write_pid_file w s pid_file).1 = 0 ∧
      (write_pid_file w s pid_file).2.files pid_file = some (fmt_d w.getpid ++ "\n".toList) ∧
      read_pid_file (write_pid_file w s pid_file).2 pid_file = w.getpid) := by
  refine ⟨scanf_d_fmt_d_newline w.getpid hpos hhi, ?_⟩
  intro hopen hflock htrunc hwrite
  have hfiles : (write_pid_file w s pid_file).2.files pid_file
      = some (fmt_d w.getpid ++ "\n".toList) := by
    unfold write_pid_file
    simp only [if_neg (not_lt.mpr hopen), if_neg (not_lt.mpr hflock),
      if_neg (not_lt.mpr htrunc)]
    simp only [emit, set_file, if_true, Option.getD_some, List.take_of_length_le hwrite,
      List.drop_nil, List.append_nil]
  refine ⟨?_, hfiles, ?_⟩
  · unfold write_pid_file
    simp only [if_neg (not_lt.mpr hopen), if_neg (not_lt.mpr hflock),
      if_neg (not_lt.mpr htrunc)]
  · unfold read_pid_file
    rw [hfiles]
    simp only [scanf_d_fmt_d_newline w.getpid hpos hhi]

/-! ## `get_pid_file` -/

theorem find_cmd_start_found (l : List CStr) (i : Nat) (c : Int)
    (h : find_cmd_start l i = c) (hc : c ≠ -1) :
    ∃ j, j < l.length ∧ l.getD j [] = "--".toList ∧ c = (i : Int) + j + 1 := by
  induction l generalizing i with
  | nil =>
    simp only [find_cmd_start] at h
    exact absurd h.symm hc
  | cons a rest ih =>
    unfold find_cmd_start at h
    by_cases ha : a = "--".toList
    · rw [if_pos ha] at h
      exact ⟨0, by simp, by simpa using ha, by simp [← h]⟩
    · rw [if_neg ha] at h
      obtain ⟨j, hj, hget, hval⟩ := ih (i + 1) h
      refine ⟨j + 1, by simpa using hj, by simpa using hget, ?_⟩
      rw [hval]
      push_cast
      ring

theorem main_start_usage (argv : List CStr) (hlen : ¬ (Int.ofNat argv.length < 3))
    (hact : argv.getD 2 [] = "start".toList ∨ argv.getD 2 [] = "restart".toList)
    (h : ¬ cli_accepted argv) :
    find_cmd_start (argv.drop 3) 3 = -1 ∨
      find_cmd_start (argv.drop 3) 3 ≥ Int.ofNat argv.length := by
  by_contra hcon
  push_neg at hcon
  obtain ⟨hne, hlt⟩ := hcon
  obtain ⟨j, hj, hget, hval⟩ := find_cmd_start_found (argv.drop 3) 3 _ rfl hne
  apply h
  have hlen3 : 3 ≤ argv.length := by
    simp only [Int.ofNat_eq_coe] at hlen
    omega
  refine ⟨hlen3, Or.inr ⟨hact, 3 + j, by omega, ?_, ?_⟩⟩
  · rw [hval] at hlt
    simp only [Int.ofNat_eq_coe] at hlt
    omega
  · simpa [List.getElem?_drop] using hget

/-- C8, as amended: `main` prints the usage text and exits with code 1, doing
nothing else (no call of `start_daemon`, `stop_daemon` or `restart_daemon`),
whenever there are fewer than two arguments after the program name, the action
is none of `start`, `stop`, `restart`, or the action is `start` or `restart`
and no argument from index 3 on is a `--` followed by at least one word. -/
theorem main_usage (w : World) (s : State) (argv : List CStr) (h : ¬ cli_accepted argv) :
    main w s argv = usage s (argv.headD "(null)".toList) ∧
    (main w s argv).1 = Outcome.exit 1 ∧
    (main w s argv).2.trace = s.trace ++
      [Event.stderr ("Usage: ".toList ++ argv.headD "(null)".toList ++
          " <name> start|stop|restart -- command [args...]\n".toList),
       Event.stderr ("Example: ".toList ++ argv.headD "(null)".toList ++
          " myapp start -- /usr/local/bin/myapp -c config.conf\n".toList)] ∧
    (main w s argv).2.files = s.files ∧
    (main w s argv).2.nkill = s.nkill ∧
    (main w s argv).2.nfork = s.nfork := by
  have hmain : main w s argv = usage s (argv.headD "(null)".toList) := by
    unfold main
    by_cases hlen : Int.ofNat argv.length < 3
    · simp only [hlen, if_true]
    · simp only [hlen, if_false]
      by_cases hstart : argv.getD 2 [] = "start".toList
      · rw [if_pos hstart, if_pos (main_start_usage argv hlen (Or.inl hstart) h)]
      · rw [if_neg hstart]
        by_cases hstop : argv.getD 2 [] = "stop".toList
        · exfalso
          apply h
          simp only [Int.ofNat_eq_coe] at hlen
          exact ⟨by omega, Or.inl hstop⟩
        · rw [if_neg hstop]
          by_cases hrestart : argv.getD 2 [] = "restart".toList
          · rw [if_pos hrestart, if_pos (main_start_usage argv hlen (Or.inr hrestart) h)]
          · rw [if_neg hrestart]
  rw [hmain]
  refine ⟨rfl, rfl, ?_, rfl, rfl, rfl⟩
  simp [usage, emit]

theorem find_cmd_start_bounds (l : List CStr) (i j : Nat) (hj : j < l.length)
    (hget : l.getD j [] = "--".toList) :
    (i : Int) + 1 ≤ find_cmd_start l i ∧ find_cmd_start l i ≤ (i : Int) + j + 1 := by
  induction l generalizing i j with
  | nil => simp at hj
  | cons a rest ih =>
    unfold find_cmd_start
    by_cases ha : a = "--".toList
    · rw [if_pos ha]
      simp only [Int.ofNat_eq_coe]
      omega
    · rw [if_neg ha]
      cases j with
      | zero =>
        simp at hget
        exact absurd hget ha
      | succ j =>
        have := ih (i + 1) j (by simpa using hj) (by simpa using hget)
        push_cast at this ⊢
        omega

/-- The invocations `main` acts on are passed to the function the action
names, the words after the first `--` being the command. -/
theorem main_dispatch (w : World) (s : State) (argv : List CStr) (h : cli_accepted argv) :
    main w s argv =
      if argv.getD 2 [] = "start".toList then
        start_daemon w s (argv.getD 1 [])
          (argv.drop (find_cmd_start (argv.drop 3) 3).toNat)
      else if argv.getD 2 [] = "stop".toList then
        (Outcome.ret (stop_daemon w s (argv.getD 1 [])).1,
          (stop_daemon w s (argv.getD 1 [])).2)
      else
        restart_daemon w s (argv.getD 1 [])
          (argv.drop (find_cmd_start (argv.drop 3) 3).toNat) := by
  obtain ⟨hlen, hact⟩ := h
  have hargc : ¬ (Int.ofNat argv.length < 3) := by
    simp only [Int.ofNat_eq_coe]
    omega
  have hfound : (argv.getD 2 [] = "start".toList ∨ argv.getD 2 [] = "restart".toList) →
      ¬ (find_cmd_start (argv.drop 3) 3 = -1 ∨
        find_cmd_start (argv.drop 3) 3 ≥ Int.ofNat argv.length) := by
    intro hsr
    have hex : ∃ i, 3 ≤ i ∧ i + 1 < argv.length ∧ argv.getD i [] = "--".toList := by
      rcases hact with hstop | ⟨_, hex⟩
      · rcases hsr with hs | hs
        · rw [hstop] at hs
          exact absurd hs (by decide)
        · rw [hstop] at hs
          exact absurd hs (by decide)
      · exact hex
    obtain ⟨i, hi3, hilt, hget⟩ := hex
    have hb := find_cmd_start_bounds (argv.drop 3) 3 (i - 3)
      (by simp only [List.length_drop]; omega)
      (by
        have : 3 + (i - 3) = i := by omega
        simpa [List.getElem?_drop, this] using hget)
    simp only [Int.ofNat_eq_coe]
    push_cast at hb
    omega
  unfold main
  simp only [hargc, if_false]
  by_cases hstart : argv.getD 2 [] = "start".toList
  · rw [if_pos hstart, if_pos hstart, if_neg (hfound (Or.inl hstart))]
  · rw [if_neg hstart, if_neg hstart]
    by_cases hstop : argv.getD 2 [] = "stop".toList
    · rw [if_pos hstop, if_pos hstop]
    · rw [if_neg hstop, if_neg hstop]
      have hrestart : argv.getD 2 [] = "restart".toList := by
        rcases hact with h1 | ⟨h1 | h1, _⟩
        · exact absurd h1 hstop
        · exact absurd h1 hstart
        · exact h1
      rw [if_pos hrestart, if_neg (hfound (Or.inr hrestart))]

/-! ## Concrete runs -/

/-- C1 at a concrete run: no registry file for `web`. -/
theorem stop_daemon_no_entry_witness :
    (state_with_entry none).files (get_pid_file "web".toList) = none ∧
    (stop_daemon (world_alive_for 0) (state_with_entry none) "web".toList).1 = 1 ∧
    (stop_daemon (world_alive_for 0) (state_with_entry none) "web".toList).2.trace
      = (state_with_entry none).trace
          ++ [Event.stderr "PID file not found or invalid\n".toList] :=
  ⟨by decide,
   (stop_daemon_no_entry (world_alive_for 0) (state_with_entry none) "web".toList
      (Or.inl (by decide))).1,
   (stop_daemon_no_entry (world_alive_for 0) (state_with_entry none) "web".toList
      (Or.inl (by decide))).2.1⟩

/-- C2 at a concrete run: the file holds 123 and the probe fails. -/
theorem stop_daemon_stale_entry_witness :
    read_pid_file (state_with_entry (some "123\n".toList)) (get_pid_file "web".toList) = 123 ∧
    (stop_daemon (world_alive_for 0) (state_with_entry (some "123\n".toList))
      "web".toList).1 = 1 ∧
    (stop_daemon (world_alive_for 0) (state_with_entry (some "123\n".toList))
      "web".toList).2.trace
      = (state_with_entry (some "123\n".toList)).trace
          ++ [Event.kill 123 0, Event.stderr "Process not running\n".toList,
              Event.unlink (get_pid_file "web".toList)] :=
  ⟨by decide,
   (stop_daemon_stale_entry (world_alive_for 0) (state_with_entry (some "123\n".toList))
      "web".toList 123 (by decide) (by decide) (by decide)).1,
   (stop_daemon_stale_entry (world_alive_for 0) (state_with_entry (some "123\n".toList))
      "web".toList 123 (by decide) (by decide) (by decide)).2.1⟩

/-- C4 at a concrete run: the file holds 123 and the probe succeeds. -/
theorem start_daemon_already_running_witness :
    read_pid_file (state_with_entry (some "123\n".toList)) (get_pid_file "web".toList) = 123 ∧
    (world_alive_for 1).kill_ok 0 123 0 = true ∧
    (start_daemon (world_alive_for 1) (state_with_entry (some "123\n".toList))
      "web".toList ["sleep".toList, "300".toList]).1 = Outcome.ret 1 :=
  ⟨by decide, by decide,
   (start_daemon_already_running (world_alive_for 1)
      (state_with_entry (some "123\n".toList)) "web".toList
      ["sleep".toList, "300".toList] 123 (by decide) (by decide) (by decide)).1⟩

/-- C5 at a concrete file: a blank, `-12`, then `abc`. -/
theorem read_pid_file_spec_witness :
    (state_with_entry (some " -12abc".toList)).files "/var/run/web.pid".toList
      = some (" ".toList ++ "-".toList ++ "12".toList ++ "abc".toList) ∧
    read_pid_file (state_with_entry (some " -12abc".toList)) "/var/run/web.pid".toList
      = -12 :=
  ⟨by decide,
   (read_pid_file_spec (state_with_entry (some " -12abc".toList))
      "/var/run/web.pid".toList).2.2 " ".toList "-".toList "12".toList "abc".toList (-12)
      (by decide) (by decide) (Or.inr (Or.inr rfl)) (by decide) (by decide) (by decide)
      (by decide) (by decide) (by decide)⟩

/-- C6 at a concrete run: the process id is 4242. -/
theorem write_read_round_trip_witness :
    (0 : Int) < (world_alive_for 0).getpid ∧
    (world_alive_for 0).getpid < 2 ^ 31 ∧
    read_pid_file (write_pid_file (world_alive_for 0) (state_with_entry none)
      "/var/run/web.pid".toList).2 "/var/run/web.pid".toList = (world_alive_for 0).getpid :=
  ⟨by decide, by decide,
   ((write_read_round_trip (world_alive_for 0) (state_with_entry none)
      "/var/run/web.pid".toList (by decide) (by decide)).2 (by decide) (by decide) (by decide)
      (by decide)).2.2⟩

/-- C8 at the invocation `daemond web`. -/
theorem main_usage_witness :
    ¬ cli_accepted ["daemond".toList, "web".toList] ∧
    (main (world_alive_for 0) (state_with_entry none) ["daemond".toList, "web".toList]).1
      = Outcome.exit 1 :=
  ⟨fun h => absurd h.1 (by decide),
   (main_usage (world_alive_for 0) (state_with_entry none) ["daemond".toList, "web".toList]
      (fun h => absurd h.1 (by decide))).2.1⟩

/-! ## Where the code departs from a claim -/

/-- C5, counterexample: the registry file holds `12abc`.  Its first
white-space-delimited token, `12abc`, is not a valid decimal integer, yet
`read_pid_file` returns the process id 12 and not the failure result -1. -/
theorem read_pid_file_accepts_trailing_text :
    first_token "12abc".toList = "12abc".toList ∧
    is_decimal_integer (first_token "12abc".toList) = false ∧
    read_pid_file (state_with_entry (some "12abc".toList)) "/var/run/web.pid".toList = 12 := by
  decide

/-- C8, counterexample: the invocation `daemond web stop extra` has none of
the three forms of the command line, yet `main` does not print usage and exit
with 1: it runs `stop_daemon`, which sends SIGTERM to the registered process
and returns 0. -/
theorem main_accepts_extra_words :
    well_formed_cli ["daemond".toList, "web".toList, "stop".toList, "extra".toList] = false ∧
    (main (world_alive_for 2) (state_with_entry (some "123\n".toList))
      ["daemond".toList, "web".toList, "stop".toList, "extra".toList]).1 = Outcome.ret 0 ∧
    (main (world_alive_for 2) (state_with_entry (some "123\n".toList))
      ["daemond".toList, "web".toList, "stop".toList, "extra".toList]).2.trace
      = [Event.kill 123 0, Event.kill 123 SIGTERM, Event.kill 123 0, Event.kill 123 0,
         Event.unlink "/var/run/web.pid".toList] := by
  decide

/-- C10, the code at the failing input: the registry file holds `0`.
`read_pid_file` returns 0, which `stop_daemon` does not reject: its first two
calls are `kill(0, 0)` and `kill(0, SIGTERM)`, addressed to process id 0, that
is, to the process group of the caller. -/
theorem stop_daemon_signals_pid_zero :
    read_pid_file (state_with_entry (some "0\n".toList)) (get_pid_file "web".toList) = 0 ∧
    (stop_daemon (world_alive_for 2) (state_with_entry (some "0\n".toList))
      "web".toList).2.trace.take 2 = [Event.kill 0 0, Event.kill 0 SIGTERM] ∧
    (stop_daemon (world_alive_for 2) (state_with_entry (some "0\n".toList))
      "web".toList).1 = 0 := by
  decide

end Daemond
